import Mathlib

/-!
Shallow embedding of the response-parsing subsystem of the MedError repository
(file src/mederror/postprocess.py): the functions parse_result_file,
parse_result_file_tab and parse_result_file_new.

Text is modelled as lists of characters.  The Python regex operations used by
the source are modelled by explicit scanning functions that mirror the
backtracking semantics of the concrete patterns appearing in the code.
pandas.DataFrame construction from a list of row lists is modelled by pandasDF
(maximum-width inference over possibly ragged rows, padding shorter rows with
a null cell, and a column-count check that raises on mismatch), and Python
exceptions are modelled with Except Unit.  File reading is outside the model:
the parsers take the response-document text, and for merge mode the list of
already header-stripped CSV rows, as arguments.
-/

abbrev Chars := List Char

/-- Python whitespace predicate used by str.strip and the regex class \s. -/
def pyWS (c : Char) : Bool :=
  c == ' ' || c == '\t' || c == '\n' || c == '\r' || c == '\x0b' || c == '\x0c'

/-- Python str.strip(): drop whitespace from both ends. -/
def pyStrip (l : Chars) : Chars :=
  ((l.dropWhile pyWS).reverse.dropWhile pyWS).reverse

def splitOnCharAux (sep : Char) : Chars → Chars → List Chars
  | [], acc => [acc.reverse]
  | c :: tl, acc =>
    if c == sep then acc.reverse :: splitOnCharAux sep tl []
    else splitOnCharAux sep tl (c :: acc)

/-- Python str.split(sep) for a one-character separator. -/
def splitOnChar (sep : Char) (l : Chars) : List Chars := splitOnCharAux sep l []

/-- Python "".join(cells). -/
def joinAll (cells : List Chars) : Chars := cells.foldr (· ++ ·) []

/-- Does l start with pat (exact characters)? -/
def leadsWith (pat l : Chars) : Bool := l.take pat.length == pat

def headIs (a : Char) : Chars → Bool
  | [] => false
  | c :: _ => c == a

def pipeCountL (l : Chars) : Nat := l.countP (fun c => c == '|')

/-- Case-insensitive match of the (pre-lowercased) pattern at the front of l. -/
def lowEq (pat l : Chars) : Bool := (l.take pat.length).map Char.toLower == pat

def findCISubAux (pat : Chars) : Nat → Chars → Option Nat
  | i, [] => if lowEq pat [] then some i else none
  | i, c :: tl => if lowEq pat (c :: tl) then some i else findCISubAux pat (i + 1) tl

/-- Index of the first case-insensitive occurrence of pat in l
(the pattern must be given in lower case). -/
def findCISub (pat l : Chars) : Option Nat := findCISubAux pat 0 l

/-- Case-insensitive match of pat at position i of l. -/
def matchCIAt (pat l : Chars) (i : Nat) : Bool := lowEq pat (l.drop i)

/-- Python: pat in l.lower(). -/
def containsCI (pat l : Chars) : Bool := (findCISub pat l).isSome

def countWSPre (l : Chars) : Nat := (l.takeWhile pyWS).length

def wsSufLen (l : Chars) : Nat := (l.reverse.takeWhile pyWS).length

/-! ### Block splitting: re.split on the marker pattern "###### " followed by digits -/

def markPat : Chars := ("###### ").data

/-- If l starts with a marker ("###### " then at least one digit), return the
text after the marker (the maximal digit run is consumed). -/
def matchMarker (l : Chars) : Option Chars :=
  if leadsWith markPat l then
    match l.drop 7 with
    | c :: tl => if c.isDigit then some (tl.dropWhile Char.isDigit) else none
    | [] => none
  else none

def scanBlocksAux : Nat → Chars → Chars → List Chars → Bool → List Chars
  | 0, _, cur, acc, inSeg => if inSeg then acc ++ [cur.reverse] else acc
  | fuel + 1, l, cur, acc, inSeg =>
    match matchMarker l with
    | some rest => scanBlocksAux fuel rest [] (if inSeg then acc ++ [cur.reverse] else acc) true
    | none =>
      match l with
      | [] => if inSeg then acc ++ [cur.reverse] else acc
      | c :: tl => scanBlocksAux fuel tl (if inSeg then c :: cur else cur) acc inSeg

/-- The per-query blocks of a response document: the document is stripped,
split at each marker occurrence, the text before the first marker is ignored,
and each block is stripped (queries[i+1].strip() in the source). -/
def blocksOf (content : Chars) : List Chars :=
  let c2 := pyStrip content
  (scanBlocksAux (c2.length + 1) c2 [] [] false).map pyStrip

/-! ### The markdown-table matcher of parse_result_file

Models re.search of the pattern
((\|?X\|X\|X\|X\|?)\n(\|?X\|X\|X\|X\|?\n?)*)  with  X = [^|\n]*
over the block text.  A first-line match must end exactly at a line end
(the pattern requires a newline right after the first line part), so the
leftmost match starts at the first position whose line suffix fully matches
the line shape; the starred part then greedily consumes further line
fragments, each containing at least three pipes. -/

/-- Full match of the single-line shape \|?X\|X\|X\|X\|? against all of l. -/
def fullMatchA (l : Chars) : Bool :=
  let m := pipeCountL l
  m == 3 || (m == 4 && (headIs '|' l || headIs '|' l.reverse))
    || (m == 5 && headIs '|' l && headIs '|' l.reverse)

/-- Smallest suffix start of the line whose suffix fully matches the line shape. -/
def findAStart (l : Chars) : Option Nat :=
  (List.range l.length).find? (fun s => fullMatchA (l.drop s))

/-- First line index (among lines followed by a newline) and suffix start
where the table pattern can begin. -/
def findTableStart (ls : List Chars) : Option (Nat × Nat) :=
  (List.range (ls.length - 1)).findSome?
    (fun j => (findAStart (ls.getD j [])).map (fun s => (j, s)))

/-- 1-based index of the n-th pipe character of l. -/
def pipeIdx : Chars → Nat → Option Nat
  | [], _ => none
  | c :: tl, n =>
    if c == '|' then
      if n ≤ 1 then some 0 else (pipeIdx tl (n - 1)).map (· + 1)
    else (pipeIdx tl n).map (· + 1)

/-- Number of characters consumed by one greedy match of the starred line
shape at the front of u (inside one line), or none if it cannot match. -/
def consumeB (u : Chars) : Option Nat :=
  let m := pipeCountL u
  if m < 3 then none
  else if headIs '|' u then
    if 5 ≤ m then some ((pipeIdx u 5).getD u.length + 1) else some u.length
  else
    if 4 ≤ m then some ((pipeIdx u 4).getD u.length + 1) else some u.length

/-- Greedy consumption of (B\n?)* from line k, column c; returns the end
position.  A newline is consumed only when a match ends exactly at the end of
a line that is followed by another line. -/
def starLoop : Nat → List Chars → Nat → Nat → Nat × Nat
  | 0, _, k, c => (k, c)
  | fuel + 1, ls, k, c =>
    match ls.get? k with
    | none => (k, c)
    | some line =>
      match consumeB (line.drop c) with
      | none => (k, c)
      | some d =>
        if c + d = line.length ∧ k + 1 < ls.length then starLoop fuel ls (k + 1) 0
        else starLoop fuel ls k (c + d)

def joinNL : List Chars → Chars
  | [] => []
  | [l] => l
  | l :: ls => l ++ '\n' :: joinNL ls

/-- group(0) of the table regex over the block text, or none. -/
def findTableMatch (qc : Chars) : Option Chars :=
  let ls := splitOnChar '\n' qc
  match findTableStart ls with
  | none => none
  | some (j, s) =>
    let ke := starLoop (qc.length + ls.length + 2) ls (j + 1) 0
    some (joinNL (((ls.getD j []).drop s) ::
      ((ls.drop (j + 1)).take (ke.1 - (j + 1)) ++ [(ls.getD ke.1 []).take ke.2])))

/-! ### The display-math fallback of parse_result_file -/

def tpat : Chars := ("\\text\x7b").data

def textSpansAux : Nat → Chars → List Chars
  | 0, _ => []
  | _ + 1, [] => []
  | fuel + 1, c :: tl =>
    if leadsWith tpat (c :: tl) then
      let rest := (c :: tl).drop 6
      let cap := rest.takeWhile (fun x => x != '\x7d')
      match rest.drop cap.length with
      | '\x7d' :: after2 => cap :: textSpansAux fuel after2
      | _ => textSpansAux fuel tl
    else textSpansAux fuel tl

/-- re.findall of the bracketed-span pattern: every non-overlapping
occurrence of a backslash-text group, capturing the text inside the braces. -/
def findTextSpans (qc : Chars) : List Chars := textSpansAux (qc.length + 1) qc

def groupsOf4 : List Chars → List (List Chars)
  | a :: b :: c :: d :: rest => [a, b, c, d] :: groupsOf4 rest
  | [] => []
  | rest => [rest]

/-- rows[i : i+4] for i in range(4, len(rows), 4): skip the first four spans,
then regroup every four consecutive spans (a final shorter group is kept). -/
def textSpanChunks (qc : Chars) : List (List Chars) :=
  groupsOf4 ((findTextSpans qc).drop 4)

/-! ### Data model of assembled rows and the pandas constructor -/

inductive PCell where
  | str (v : Chars)
  | lst (v : List Chars)
  | nan
deriving DecidableEq

def failStr : Chars := ("CHATGPT_FAILURE").data

def sentinel4 : List Chars := [failStr, failStr, failStr, failStr]

def sentinelRow : List PCell := sentinel4.map PCell.str

def maxWidth (rows : List (List PCell)) : Nat :=
  (rows.map List.length).foldr Nat.max 0

def padTo (w : Nat) (r : List PCell) : List PCell :=
  r ++ List.replicate (w - r.length) PCell.nan

/-- pd.DataFrame(rows, columns) for a non-empty list of row lists: the content
width is the maximum row length, shorter rows are padded with null cells, and
construction raises when the number of column labels differs from the width. -/
def pandasDF (rows : List (List PCell)) (ncols : Nat) : Except Unit (List (List PCell)) :=
  if maxWidth rows = ncols then .ok (rows.map (padTo ncols)) else .error ()

/-! ### parse_result_file (markdown-table strategy) -/

/-- Trim each pipe-separated cell and keep only the non-empty ones
([col.strip() for col in data_row.split("|") if col.strip()]). -/
def cellsOfRow (row : Chars) : List Chars :=
  ((splitOnChar '|' row).map pyStrip).filter (fun c => !c.isEmpty)

/-- Per-block extraction of parse_result_file. -/
def prfBlock (qc : Chars) : List PCell :=
  match findTableMatch qc with
  | some g0 =>
    if 2 < (splitOnChar '\n' (pyStrip g0)).length then
      (cellsOfRow ((splitOnChar '\n' (pyStrip g0)).getD 2 [])).map PCell.str
    else if 1 < (splitOnChar '\n' (pyStrip g0)).length then
      (cellsOfRow ((splitOnChar '\n' (pyStrip g0)).getD 1 [])).map PCell.str
    else (textSpanChunks qc).map PCell.lst
  | none => sentinelRow

def parse_result_file (content : Chars) : Except Unit (Option (List (List PCell))) :=
  if (blocksOf content).map prfBlock = [] then .ok .none
  else (pandasDF ((blocksOf content).map prfBlock) 4).map Option.some

/-! ### parse_result_file_tab (tab-delimited Final-Answer strategy) -/

def boldPat : Chars := ("**Final Answer**:\n").data

/-- re.search of the bold Final-Answer pattern with DOTALL: the first
occurrence of the literal marker followed by at least one character; the
captured group is all remaining text. -/
def findBoldFAAux : Nat → Chars → Option Chars
  | 0, _ => none
  | _ + 1, [] => none
  | fuel + 1, c :: tl =>
    if leadsWith boldPat (c :: tl) && !((c :: tl).drop boldPat.length).isEmpty then
      some ((c :: tl).drop boldPat.length)
    else findBoldFAAux fuel tl

def findBoldFA (qc : Chars) : Option Chars := findBoldFAAux (qc.length + 1) qc

def headTail : Chars := ("Final Answer:\n").data

/-- After the run of hash signs: skip whitespace greedily, then require the
literal heading text, a newline, and at least one further character. -/
def checkHead (m : Chars) : Option Chars :=
  let m2 := m.dropWhile pyWS
  if leadsWith headTail m2 && !(m2.drop headTail.length).isEmpty then
    some (m2.drop headTail.length)
  else none

/-- re.search of the heading pattern (two or three hash signs, greedy). -/
def findHeadFAAux : Nat → Chars → Option Chars
  | 0, _ => none
  | _ + 1, [] => none
  | fuel + 1, c :: tl =>
    if c == '#' && headIs '#' tl then
      let r :=
        if headIs '#' (tl.drop 1) then
          match checkHead ((c :: tl).drop 3) with
          | some r3 => some r3
          | none => checkHead ((c :: tl).drop 2)
        else checkHead ((c :: tl).drop 2)
      match r with
      | some r2 => some r2
      | none => findHeadFAAux fuel tl
    else findHeadFAAux fuel tl

def findHeadFA (qc : Chars) : Option Chars := findHeadFAAux (qc.length + 1) qc

/-- Tab-split the final answer, trim cells, drop empty cells. -/
def tabCells (fa : Chars) : List Chars :=
  ((splitOnChar '\t' fa).map pyStrip).filter (fun c => !c.isEmpty)

/-- Accept the tab row only when it has exactly 4 cells. -/
def tabRow (fa : Chars) : List Chars :=
  if (tabCells fa).length = 4 then tabCells fa else sentinel4

/-- Per-block extraction of parse_result_file_tab. -/
def prftBlock (qc : Chars) : List Chars :=
  match findBoldFA qc with
  | some g1 => tabRow (pyStrip g1)
  | none =>
    match findHeadFA qc with
    | some g2 => tabRow (pyStrip g2)
    | none => sentinel4

def parse_result_file_tab (content : Chars) : Except Unit (Option (List (List PCell))) :=
  if (blocksOf content).map (fun b => (prftBlock b).map PCell.str) = [] then .ok .none
  else (pandasDF ((blocksOf content).map (fun b => (prftBlock b).map PCell.str)) 4).map Option.some

/-! ### parse_result_file_new (labeled-field strategy with merge) -/

def faPat : Chars := ("final answer").data

def faRep : Chars := ("Final Answer").data

/-- re.sub of the lazy anchored pattern: at most one replacement, turning the
whole prefix up to and including the first case-insensitive occurrence of
"final answer" into the literal "Final Answer". -/
def subFA (qc : Chars) : Chars :=
  match findCISub faPat qc with
  | some i => faRep ++ qc.drop (i + faPat.length)
  | none => qc

def ecSub : Chars := ("error class").data

def reSub : Chars := ("reasoning").data

def ecPat : Chars := ("error class:").data

def rePat : Chars := ("reasoning:").data

def nAStr : Chars := ("N/A").data

/-- End position of the first match of "error class:" followed by greedy
whitespace (match.end() of the error-class regex). -/
def searchErrorClassEnd (l : Chars) : Option Nat :=
  (findCISub ecPat l).map
    (fun i => i + ecPat.length + countWSPre (l.drop (i + ecPat.length)))

/-- Start and end positions of the first match of greedy whitespace,
"reasoning:", greedy whitespace (match.start() and match.end()). -/
def searchReasoningSE (l : Chars) : Option (Nat × Nat) :=
  (findCISub rePat l).map
    (fun p => (p - wsSufLen (l.take p),
               p + rePat.length + countWSPre (l.drop (p + rePat.length))))

/-- Python replace("*", ""): remove all literal asterisks. -/
def starFree (qc : Chars) : Chars := qc.filter (fun c => c != '*')

/-- The four primary fields of the labeled-field strategy, for the query
content as it stands after the final-answer substitution (lines 199-240 of
the source). -/
def labeledFields (qc : Chars) : List Chars :=
  if containsCI ecSub qc && containsCI reSub qc then
    match searchErrorClassEnd (starFree qc), searchReasoningSE (starFree qc) with
    | some ecEnd, some rse =>
      [nAStr, nAStr, pyStrip (((starFree qc).take rse.1).drop ecEnd),
       pyStrip ((starFree qc).drop rse.2)]
    | some _, none => sentinel4
    | none, _ => sentinel4
  else sentinel4

/-- One output row of parse_result_file_new: the four primary fields of the
block (after the final-answer substitution) followed by the origin fields. -/
def pnewBlock (b : Chars) (ro : List Chars) : List PCell :=
  (labeledFields (subFA b) ++ ro).map PCell.str

/-- The main loop of parse_result_file_new: one output row per block, the
original-row index advancing in lock-step; accessing a missing original row
raises (IndexError). -/
def pnewRows : List Chars → List (List Chars) → Nat → Except Unit (List (List PCell))
  | [], _, _ => .ok []
  | b :: bs, csvRows, idx =>
    match csvRows.get? idx with
    | none => .error ()
    | some cells =>
      match pnewRows bs csvRows (idx + 1) with
      | .error e => .error e
      | .ok rest => .ok (pnewBlock b (splitOnChar '\t' (joinAll cells)) :: rest)

def parse_result_file_new (content : Chars) (csvRows : List (List Chars)) :
    Except Unit (Option (List (List PCell))) :=
  match pnewRows (blocksOf content) csvRows 0 with
  | .error e => .error e
  | .ok rows => if rows = [] then .ok .none else (pandasDF rows 8).map Option.some

/-! ### Helper lemmas -/

lemma tabRow_length (fa : Chars) : (tabRow fa).length = 4 := by
  unfold tabRow
  by_cases h : (tabCells fa).length = 4 <;> simp [h, sentinel4]

lemma prftBlock_length (qc : Chars) : (prftBlock qc).length = 4 := by
  unfold prftBlock
  cases findBoldFA qc with
  | some g1 => exact tabRow_length _
  | none =>
    cases findHeadFA qc with
    | some g2 => exact tabRow_length _
    | none => rfl

lemma labeledFields_length (qc : Chars) : (labeledFields qc).length = 4 := by
  unfold labeledFields
  by_cases h : (containsCI ecSub qc && containsCI reSub qc) = true
  · rw [if_pos h]
    cases searchErrorClassEnd (starFree qc) with
    | none => rfl
    | some ecEnd =>
      cases searchReasoningSE (starFree qc) with
      | none => rfl
      | some rse => rfl
  · rw [if_neg h]
    rfl

lemma maxWidth_all4 :
    ∀ rows : List (List PCell), rows ≠ [] → (∀ r ∈ rows, r.length = 4) →
      maxWidth rows = 4
  | [], hne, _ => absurd rfl hne
  | r :: rows, _, hall => by
    cases rows with
    | nil =>
      have h4 : r.length = 4 := hall r (by simp)
      simp [maxWidth, h4]
    | cons r2 rows2 =>
      have ih := maxWidth_all4 (r2 :: rows2) (by simp)
        (fun x hx => hall x (List.mem_cons_of_mem _ hx))
      have h4 : r.length = 4 := hall r (by simp)
      show Nat.max r.length (maxWidth (r2 :: rows2)) = 4
      rw [ih, h4]
      exact Nat.max_self 4

lemma pandasDF_ok_eq {rows : List (List PCell)} {n : Nat} {df : List (List PCell)}
    (h : pandasDF rows n = .ok df) : df = rows.map (padTo n) := by
  unfold pandasDF at h
  split at h
  · injection h with h
    exact h.symm
  · exact Except.noConfusion h

lemma pandasDF_ok_len {rows : List (List PCell)} {n : Nat} {df : List (List PCell)}
    (h : pandasDF rows n = .ok df) : df.length = rows.length := by
  rw [pandasDF_ok_eq h]
  simp

lemma assemble_len {rows : List (List PCell)} {n : Nat} {df : List (List PCell)}
    (h : (if rows = [] then (Except.ok Option.none : Except Unit (Option (List (List PCell))))
          else (pandasDF rows n).map Option.some) = .ok (some df)) :
    df.length = rows.length := by
  split at h
  · simp at h
  · cases hd : pandasDF rows n with
    | error e => rw [hd] at h; simp [Except.map] at h
    | ok d =>
      rw [hd] at h
      simp [Except.map] at h
      rw [← h]
      exact pandasDF_ok_len hd

lemma pnewRows_ok_len :
    ∀ (bs : List Chars) (csv : List (List Chars)) (idx : Nat) (rows : List (List PCell)),
      pnewRows bs csv idx = .ok rows → rows.length = bs.length
  | [], _, _, rows, h => by
    unfold pnewRows at h
    injection h with h
    rw [← h]
    rfl
  | b :: bs, csv, idx, rows, h => by
    unfold pnewRows at h
    cases hg : csv.get? idx with
    | none => rw [hg] at h; exact Except.noConfusion h
    | some cells =>
      rw [hg] at h
      cases hr : pnewRows bs csv (idx + 1) with
      | error e => rw [hr] at h; exact Except.noConfusion h
      | ok rest =>
        rw [hr] at h
        injection h with h
        rw [← h]
        simp [pnewRows_ok_len bs csv (idx + 1) rest hr]

lemma pnewRows_err :
    ∀ (bs : List Chars) (csv : List (List Chars)) (idx : Nat),
      bs ≠ [] → csv.length < idx + bs.length → pnewRows bs csv idx = .error ()
  | [], _, _, hne, _ => absurd rfl hne
  | b :: bs, csv, idx, _, hlt => by
    unfold pnewRows
    cases hg : csv.get? idx with
    | none => rfl
    | some cells =>
      have hidx : idx < csv.length := by
        by_contra hge
        rw [List.get?_eq_none.mpr (by omega)] at hg
        exact Option.noConfusion hg
      cases bs with
      | nil => simp at hlt; omega
      | cons b2 bs2 =>
        rw [pnewRows_err (b2 :: bs2) csv (idx + 1) (by simp) (by simp at hlt ⊢; omega)]

lemma pnewRows_get :
    ∀ (bs : List Chars) (csv : List (List Chars)) (idx : Nat) (rows : List (List PCell)),
      pnewRows bs csv idx = .ok rows → ∀ i, i < bs.length →
      ∃ cells, csv.get? (idx + i) = some cells ∧
        rows.get? i = some (pnewBlock (bs.getD i []) (splitOnChar '\t' (joinAll cells)))
  | [], _, _, _, _, i, hi => absurd hi (by simp)
  | b :: bs, csv, idx, rows, h, i, hi => by
    unfold pnewRows at h
    cases hg : csv.get? idx with
    | none => rw [hg] at h; exact Except.noConfusion h
    | some cells =>
      rw [hg] at h
      cases hr : pnewRows bs csv (idx + 1) with
      | error e => rw [hr] at h; exact Except.noConfusion h
      | ok rest =>
        rw [hr] at h
        injection h with h
        cases i with
        | zero =>
          refine ⟨cells, by simpa using hg, ?_⟩
          rw [← h]
          rfl
        | succ i2 =>
          have hi2 : i2 < bs.length := by simp at hi; omega
          obtain ⟨cells2, hc2, hr2⟩ := pnewRows_get bs csv (idx + 1) rest hr i2 hi2
          refine ⟨cells2, ?_, ?_⟩
          · rw [← hc2]
            congr 1
            omega
          · rw [← h]
            simpa using hr2

lemma drop4_padTo8 (lf ro : List Chars) (hlf : lf.length = 4) :
    (padTo 8 ((lf ++ ro).map PCell.str)).drop 4 =
      ro.map PCell.str ++ List.replicate (4 - ro.length) PCell.nan := by
  unfold padTo
  rw [List.map_append, List.append_assoc]
  have h1 : (lf.map PCell.str).length = 4 := by simp [hlf]
  rw [← h1, List.drop_left]
  congr 2
  simp [hlf]
  omega

lemma findCISubAux_min (pat : Chars) :
    ∀ (l : Chars) (i k : Nat), matchCIAt pat l k = true →
      (∀ j, j < k → matchCIAt pat l j = false) →
      findCISubAux pat i l = some (i + k)
  | [], i, k, h1, h2 => by
    have hk : k = 0 := by
      by_contra hk0
      have h0 := h2 0 (Nat.pos_of_ne_zero hk0)
      have he : matchCIAt pat ([] : Chars) 0 = matchCIAt pat ([] : Chars) k := by
        unfold matchCIAt
        simp
      rw [he, h1] at h0
      exact Bool.noConfusion h0
    subst hk
    unfold matchCIAt at h1
    rw [List.drop_nil] at h1
    unfold findCISubAux
    rw [if_pos h1]
    rfl
  | c :: tl, i, k, h1, h2 => by
    cases k with
    | zero =>
      unfold matchCIAt at h1
      rw [List.drop_zero] at h1
      unfold findCISubAux
      rw [if_pos h1]
      rfl
    | succ k2 =>
      have h0 : lowEq pat (c :: tl) = false := by
        have hx := h2 0 (Nat.succ_pos _)
        unfold matchCIAt at hx
        rwa [List.drop_zero] at hx
      unfold findCISubAux
      rw [if_neg (by simp [h0])]
      have hrec := findCISubAux_min pat tl (i + 1) k2 ?_ ?_
      · rw [hrec]
        congr 1
        omega
      · unfold matchCIAt at h1 ⊢
        rwa [List.drop_succ_cons] at h1
      · intro j hj
        have hx := h2 (j + 1) (by omega)
        unfold matchCIAt at hx ⊢
        rwa [List.drop_succ_cons] at hx

lemma findCISubAux_none (pat : Chars) :
    ∀ (l : Chars) (i : Nat), (∀ j, matchCIAt pat l j = false) →
      findCISubAux pat i l = none
  | [], i, h => by
    have h0 := h 0
    unfold matchCIAt at h0
    rw [List.drop_zero] at h0
    unfold findCISubAux
    rw [if_neg (by simp [h0])]
  | c :: tl, i, h => by
    have h0 := h 0
    unfold matchCIAt at h0
    rw [List.drop_zero] at h0
    unfold findCISubAux
    rw [if_neg (by simp [h0])]
    exact findCISubAux_none pat tl (i + 1) (fun j => by
      have hx := h (j + 1)
      unfold matchCIAt at hx ⊢
      rwa [List.drop_succ_cons] at hx)

lemma tab_ok (content : Chars) (hne : blocksOf content ≠ []) :
    parse_result_file_tab content =
      .ok (some (((blocksOf content).map (fun b => (prftBlock b).map PCell.str)).map (padTo 4))) := by
  unfold parse_result_file_tab
  have hr : (blocksOf content).map (fun b => (prftBlock b).map PCell.str) ≠ [] := by
    simpa using hne
  rw [if_neg hr]
  unfold pandasDF
  rw [if_pos (maxWidth_all4 _ hr (by
    intro r hrm
    simp at hrm
    obtain ⟨b, hb, hrb⟩ := hrm
    rw [← hrb]
    simp [prftBlock_length]))]
  rfl

/-! ### Claim theorems -/

/-- Claim C9 (confirmed): for every input document that yields zero query
blocks, each parse function returns the absent-result signal (None), not an
empty-but-present table. -/
theorem claim9_emptyDocument (content : Chars) (csvRows : List (List Chars))
    (h : blocksOf content = []) :
    parse_result_file content = .ok .none ∧
    parse_result_file_tab content = .ok .none ∧
    parse_result_file_new content csvRows = .ok .none := by
  refine ⟨?_, ?_, ?_⟩
  · unfold parse_result_file
    rw [h]
    rfl
  · unfold parse_result_file_tab
    rw [h]
    rfl
  · unfold parse_result_file_new
    rw [h]
    rfl

/-- Witness for C9: the empty document yields zero blocks and the None signal. -/
theorem claim9_witness :
    parse_result_file (("").data) = .ok .none ∧
    parse_result_file_tab (("").data) = .ok .none ∧
    parse_result_file_new (("").data) [] = .ok .none :=
  claim9_emptyDocument (("").data) [] (by rfl)

/-- Claim C4 (amended): in merge mode, when the response document has MORE
blocks than the original-input table has rows, parse_result_file_new raises
(the running index runs out of bounds on the original rows), surfacing the
mismatch; with FEWER blocks than rows it silently returns a shorter table. -/
theorem claim4_moreBlocksFatal (content : Chars) (csvRows : List (List Chars))
    (h : csvRows.length < (blocksOf content).length) :
    parse_result_file_new content csvRows = .error () := by
  unfold parse_result_file_new
  rw [pnewRows_err (blocksOf content) csvRows 0
    (by intro he; rw [he] at h; simp at h) (by omega)]

/-- Witness for C4: one block against an empty original table raises. -/
theorem claim4_witness :
    parse_result_file_new (("###### 1\nx").data) [] = .error () :=
  claim4_moreBlocksFatal (("###### 1\nx").data) [] (by decide)

/-- Counterexample for C4 as stated: with fewer blocks (1) than original
rows (2) the mismatch is NOT fatal; a 1-row table is returned silently. -/
theorem claim4_counterexample :
    (parse_result_file_new (("###### 1\nx").data)
        [[("a\tb\tc\td").data], [("e\tf\tg\th").data]]).map (Option.map List.length)
      = .ok (some 1) ∧
    (blocksOf (("###### 1\nx").data)).length ≠
      ([[("a\tb\tc\td").data], [("e\tf\tg\th").data]] : List (List Chars)).length :=
  ⟨rfl, by decide⟩

/-- Claim C1 (amended): each parse function assembles exactly one row per
block, so whenever it returns a table that table has exactly N rows for N
blocks; parse_result_file_tab always returns such a table when N is positive,
while the other two return no table when result assembly raises. -/
theorem claim1_rowCount (content : Chars) (csvRows : List (List Chars)) :
    (∀ df, parse_result_file content = .ok (some df) →
      df.length = (blocksOf content).length)
    ∧ (∀ df, parse_result_file_tab content = .ok (some df) →
      df.length = (blocksOf content).length)
    ∧ (blocksOf content ≠ [] → ∃ df, parse_result_file_tab content = .ok (some df)
        ∧ df.length = (blocksOf content).length)
    ∧ (∀ df, parse_result_file_new content csvRows = .ok (some df) →
      df.length = (blocksOf content).length) := by
  refine ⟨?_, ?_, ?_, ?_⟩
  · intro df h
    unfold parse_result_file at h
    have := assemble_len h
    simpa using this
  · intro df h
    unfold parse_result_file_tab at h
    have := assemble_len h
    simpa using this
  · intro hne
    refine ⟨_, tab_ok content hne, ?_⟩
    simp
  · intro df h
    unfold parse_result_file_new at h
    cases hpr : pnewRows (blocksOf content) csvRows 0 with
    | error e => rw [hpr] at h; exact Except.noConfusion h
    | ok rows =>
      rw [hpr] at h
      have := assemble_len h
      rw [this]
      exact pnewRows_ok_len _ _ _ _ hpr

/-- Witness for C1: a one-block document gives a one-row table. -/
theorem claim1_witness :
    ∃ df, parse_result_file_tab (("###### 1\nblah").data) = .ok (some df)
      ∧ df.length = (blocksOf (("###### 1\nblah").data)).length :=
  (claim1_rowCount (("###### 1\nblah").data) []).2.2.1 (by decide)

/-- Counterexample for C1 as stated: a 1-block document on which
parse_result_file raises instead of returning a 1-row table (the matched
data row yields 3 cells, and DataFrame construction with 4 column labels
raises on content width 3). -/
theorem claim1_counterexample :
    parse_result_file (("###### 1\n|a|b|c|\n|a|b|c|").data) = .error () ∧
    (blocksOf (("###### 1\n|a|b|c|\n|a|b|c|").data)).length = 1 :=
  ⟨rfl, rfl⟩

/-- Claim C2 (amended): per-block extraction is total and
parse_result_file_tab never raises; parse_result_file returns normally
whenever the assembled rows are absent or their maximum cell width is
exactly 4, and can raise in result assembly otherwise. -/
theorem claim2_noRaise (content : Chars)
    (h : (blocksOf content).map prfBlock = []
      ∨ maxWidth ((blocksOf content).map prfBlock) = 4) :
    (∃ r, parse_result_file_tab content = .ok r)
    ∧ (∃ r, parse_result_file content = .ok r) := by
  constructor
  · by_cases hne : blocksOf content = []
    · exact ⟨.none, by unfold parse_result_file_tab; rw [hne]; rfl⟩
    · exact ⟨_, tab_ok content hne⟩
  · rcases h with h | h
    · exact ⟨.none, by unfold parse_result_file; rw [h]; rfl⟩
    · have hne : (blocksOf content).map prfBlock ≠ [] := by
        intro he
        rw [he] at h
        simp [maxWidth] at h
      refine ⟨some (((blocksOf content).map prfBlock).map (padTo 4)), ?_⟩
      unfold parse_result_file
      rw [if_neg hne]
      unfold pandasDF
      rw [if_pos h]
      rfl

/-- Witness for C2: a document whose single block parses to the sentinel row
(width 4) is assembled without raising, by both functions. -/
theorem claim2_witness :
    (∃ r, parse_result_file_tab (("###### 1\nhello").data) = .ok r)
    ∧ (∃ r, parse_result_file (("###### 1\nhello").data) = .ok r) :=
  claim2_noRaise (("###### 1\nhello").data) (.inr (by decide))

/-- Counterexample for C2 as stated: a document whose single block matches a
one-line table, falls back to the bracketed-span scan, finds nothing, and
assembles an empty row, on which parse_result_file raises (content width 0
versus 4 column labels). -/
theorem claim2_counterexample :
    parse_result_file (("###### 9\n|a|b|c|\nrest").data) = .error () ∧
    (blocksOf (("###### 9\n|a|b|c|\nrest").data)).length = 1 :=
  ⟨rfl, rfl⟩

/-- Claim C3 (amended): in merge mode, when a table is returned, the output
row at block index i carries as its appended origin fields exactly the
tab-split of the i-th original data row, padded with null cells up to the
table width when that split is shorter than the widest row's; it equals the
tab-split exactly when the split has the full 4 fields. -/
theorem claim3_mergeAlignment (content : Chars) (csvRows : List (List Chars))
    (df : List (List PCell)) (i : Nat)
    (h : parse_result_file_new content csvRows = .ok (some df))
    (hi : i < (blocksOf content).length) :
    ∃ cells, csvRows.get? i = some cells ∧
      ∃ r, df.get? i = some r ∧
        r.drop 4 = (splitOnChar '\t' (joinAll cells)).map PCell.str
          ++ List.replicate (4 - (splitOnChar '\t' (joinAll cells)).length) PCell.nan := by
  unfold parse_result_file_new at h
  split at h
  next e heq => exact Except.noConfusion h
  next rows heq =>
    split at h
    · simp at h
    · cases hd : pandasDF rows 8 with
      | error e => rw [hd] at h; simp [Except.map] at h
      | ok d =>
        rw [hd] at h
        simp [Except.map] at h
        obtain ⟨cells, hc, hrg⟩ := pnewRows_get (blocksOf content) csvRows 0 rows heq i hi
        refine ⟨cells, by simpa using hc, ?_⟩
        have hdf : df = rows.map (padTo 8) := by
          rw [← h]
          exact pandasDF_ok_eq hd
        refine ⟨padTo 8 (pnewBlock ((blocksOf content).getD i [])
          (splitOnChar '\t' (joinAll cells))), ?_, ?_⟩
        · rw [hdf, List.get?_map, hrg]
          rfl
        · unfold pnewBlock
          exact drop4_padTo8 _ _ (labeledFields_length _)

/-- Witness for C3: a one-block document with a 4-field original row; the
origin fields are exactly the tab-split (empty padding). -/
theorem claim3_witness :
    ∃ cells, ([[("a\tb\tc\td").data]] : List (List Chars)).get? 0 = some cells ∧
      ∃ r, ([([failStr, failStr, failStr, failStr,
               ("a").data, ("b").data, ("c").data, ("d").data].map PCell.str)] :
             List (List PCell)).get? 0 = some r ∧
        r.drop 4 = (splitOnChar '\t' (joinAll cells)).map PCell.str
          ++ List.replicate (4 - (splitOnChar '\t' (joinAll cells)).length) PCell.nan :=
  claim3_mergeAlignment (("###### 1\nx").data) [[("a\tb\tc\td").data]]
    ([([failStr, failStr, failStr, failStr,
        ("a").data, ("b").data, ("c").data, ("d").data].map PCell.str)])
    0 (by rfl) (by decide)

/-- Counterexample for C3 as stated: with a second original row whose
tab-split has only 2 fields, the returned table's row 1 carries those two
fields FOLLOWED BY two null padding cells, which differs from the exact
tab-split required by the claim. -/
theorem claim3_counterexample :
    (parse_result_file_new (("###### 1\nA\n###### 2\nB").data)
        [[("a\tb\tc\td").data], [("x\ty").data]]).map
      (Option.map (fun df => (df.get? 1).map (List.drop 4)))
      = .ok (some (some [PCell.str (("x").data), PCell.str (("y").data),
                         PCell.nan, PCell.nan])) ∧
    ([PCell.str (("x").data), PCell.str (("y").data), PCell.nan, PCell.nan] : List PCell)
      ≠ (splitOnChar '\t' (joinAll [("x\ty").data])).map PCell.str :=
  ⟨rfl, by decide⟩

/-- Claim C5 (confirmed): in the labeled-field strategy, for every block
content containing both substrings (case-insensitively), when both markers
are located after asterisk removal the error-class field is the text strictly
between the end of the error-class marker and the start of the reasoning
marker (trimmed), the reasoning field is all text after the end of the
reasoning marker (trimmed), and sentence and nlp_prediction are N/A; if
either marker cannot be located the four primary fields are the sentinel
quadruple; and the spec's concrete scenario evaluates as stated. -/
theorem claim5_labeledFields :
    (∀ qc : Chars, containsCI ecSub qc = true → containsCI reSub qc = true →
      (∀ ecEnd rs re2, searchErrorClassEnd (starFree qc) = some ecEnd →
          searchReasoningSE (starFree qc) = some (rs, re2) →
          labeledFields qc =
            [nAStr, nAStr, pyStrip (((starFree qc).take rs).drop ecEnd),
             pyStrip ((starFree qc).drop re2)])
      ∧ ((searchErrorClassEnd (starFree qc) = none
          ∨ searchReasoningSE (starFree qc) = none) →
          labeledFields qc = sentinel4))
    ∧ labeledFields
        (("Error class: Negation\nReasoning: The phrase contains a negated term.").data)
      = [nAStr, nAStr, ("Negation").data,
         ("The phrase contains a negated term.").data] := by
  constructor
  · intro qc h1 h2
    constructor
    · intro ecEnd rs re2 he hr
      unfold labeledFields
      rw [if_pos (by rw [h1, h2]; rfl), he, hr]
    · intro hcase
      unfold labeledFields
      rw [if_pos (by rw [h1, h2]; rfl)]
      rcases hcase with hc | hc
      · rw [hc]
      · rw [hc]
        cases hse : searchErrorClassEnd (starFree qc) <;> rfl
  · rfl

/-- Witness for C5: the spec scenario, via the general statement with the
concrete marker positions (error-class end 13, reasoning start 21, end 33). -/
theorem claim5_witness :
    labeledFields
        (("Error class: Negation\nReasoning: The phrase contains a negated term.").data)
      = [nAStr, nAStr,
         pyStrip (((starFree (("Error class: Negation\nReasoning: The phrase contains a negated term.").data)).take 21).drop 13),
         pyStrip ((starFree (("Error class: Negation\nReasoning: The phrase contains a negated term.").data)).drop 33)] :=
  (claim5_labeledFields.1
    (("Error class: Negation\nReasoning: The phrase contains a negated term.").data)
    (by rfl) (by rfl)).1 13 21 33 (by rfl) (by rfl)

/-- Claim C6 (confirmed): in the tab-delimited Final-Answer strategy, a block
with the bold marker takes all text after it; failing that, a block with the
heading marker takes all text after it; the tab-split trimmed non-empty cells
become the row exactly when there are 4 of them, the sentinel quadruple
otherwise; with no marker at all the row is the sentinel quadruple with no
further fallback; and the spec's concrete scenario evaluates as stated. -/
theorem claim6_tabFinalAnswer :
    (∀ qc : Chars,
      (∀ g1, findBoldFA qc = some g1 → prftBlock qc = tabRow (pyStrip g1))
      ∧ (findBoldFA qc = none → ∀ g2, findHeadFA qc = some g2 →
          prftBlock qc = tabRow (pyStrip g2))
      ∧ (findBoldFA qc = none → findHeadFA qc = none → prftBlock qc = sentinel4))
    ∧ prftBlock
        (("**Final Answer**:\nThe patient fell.\tFALL\tTypographical_Error\tmisspelled word").data)
      = [("The patient fell.").data, ("FALL").data,
         ("Typographical_Error").data, ("misspelled word").data] := by
  constructor
  · intro qc
    refine ⟨?_, ?_, ?_⟩
    · intro g1 h1
      unfold prftBlock
      rw [h1]
    · intro h0 g2 h2
      unfold prftBlock
      rw [h0, h2]
    · intro h0 h2
      unfold prftBlock
      rw [h0, h2]
  · rfl

/-- Witness for C6: the spec scenario via the general statement. -/
theorem claim6_witness :
    prftBlock
        (("**Final Answer**:\nThe patient fell.\tFALL\tTypographical_Error\tmisspelled word").data)
      = tabRow (pyStrip (("The patient fell.\tFALL\tTypographical_Error\tmisspelled word").data)) :=
  (claim6_tabFinalAnswer.1
    (("**Final Answer**:\nThe patient fell.\tFALL\tTypographical_Error\tmisspelled word").data)).1
    (("The patient fell.\tFALL\tTypographical_Error\tmisspelled word").data) (by rfl)

/-- Claim C7 (amended): in the markdown-table strategy, a block in which no
table-shaped region is found at all gets the sentinel quadruple immediately,
with no fallback; the bracketed-span fallback (regrouping every 4 consecutive
spans after skipping the first 4) runs instead when a table region IS matched
but its stripped text spans at most one line, and its regrouped output —
possibly empty — becomes the row. -/
theorem claim7_fallback (qc : Chars) :
    (findTableMatch qc = none → prfBlock qc = sentinelRow)
    ∧ (∀ g0, findTableMatch qc = some g0 →
        (splitOnChar '\n' (pyStrip g0)).length ≤ 1 →
        prfBlock qc = (textSpanChunks qc).map PCell.lst) := by
  constructor
  · intro h
    unfold prfBlock
    rw [h]
  · intro g0 h hle
    simp only [prfBlock, h]
    rw [if_neg (by omega), if_neg (by omega)]

set_option maxRecDepth 8192 in
/-- Witness for C7: a block whose table match is a single line; the fallback
recovers one regrouped row of bracketed spans. -/
theorem claim7_witness :
    prfBlock (("|a|b|c|\nzz \\text\x7ba\x7d\\text\x7bb\x7d\\text\x7bc\x7d\\text\x7bd\x7d\\text\x7be\x7d\\text\x7bf\x7d\\text\x7bg\x7d\\text\x7bh\x7d").data)
      = (textSpanChunks (("|a|b|c|\nzz \\text\x7ba\x7d\\text\x7bb\x7d\\text\x7bc\x7d\\text\x7bd\x7d\\text\x7be\x7d\\text\x7bf\x7d\\text\x7bg\x7d\\text\x7bh\x7d").data)).map PCell.lst :=
  (claim7_fallback (("|a|b|c|\nzz \\text\x7ba\x7d\\text\x7bb\x7d\\text\x7bc\x7d\\text\x7bd\x7d\\text\x7be\x7d\\text\x7bf\x7d\\text\x7bg\x7d\\text\x7bh\x7d").data)).2
    (("|a|b|c|\n").data) (by rfl) (by decide)

set_option maxRecDepth 8192 in
/-- Counterexample for C7 as stated: a block with NO table-shaped region but
with eight recoverable bracketed spans; the claim says the fallback output
becomes the row, yet the code emits the sentinel quadruple immediately. -/
theorem claim7_counterexample :
    findTableMatch (("\\text\x7ba\x7d\\text\x7bb\x7d\\text\x7bc\x7d\\text\x7bd\x7d\\text\x7be\x7d\\text\x7bf\x7d\\text\x7bg\x7d\\text\x7bh\x7d").data) = none ∧
    textSpanChunks (("\\text\x7ba\x7d\\text\x7bb\x7d\\text\x7bc\x7d\\text\x7bd\x7d\\text\x7be\x7d\\text\x7bf\x7d\\text\x7bg\x7d\\text\x7bh\x7d").data) ≠ [] ∧
    prfBlock (("\\text\x7ba\x7d\\text\x7bb\x7d\\text\x7bc\x7d\\text\x7bd\x7d\\text\x7be\x7d\\text\x7bf\x7d\\text\x7bg\x7d\\text\x7bh\x7d").data) = sentinelRow ∧
    sentinelRow ≠ (textSpanChunks (("\\text\x7ba\x7d\\text\x7bb\x7d\\text\x7bc\x7d\\text\x7bd\x7d\\text\x7be\x7d\\text\x7bf\x7d\\text\x7bg\x7d\\text\x7bh\x7d").data)).map PCell.lst :=
  ⟨rfl, by decide, rfl, by decide⟩

set_option maxRecDepth 8192 in
/-- Claim C8 (amended): in the markdown-table strategy, a first matched table
region of 3 or more lines takes its 3rd matched line as the data row, a
region of exactly 2 lines takes its 2nd; the data row is split on the pipe
character, each cell trimmed, and EVERY cell that is empty after trimming is
dropped, wherever it occurs; the spec's concrete scenario evaluates as
stated. -/
theorem claim8_dataRow :
    (∀ qc g0, findTableMatch qc = some g0 →
      (2 < (splitOnChar '\n' (pyStrip g0)).length →
        prfBlock qc = (cellsOfRow ((splitOnChar '\n' (pyStrip g0)).getD 2 [])).map PCell.str)
      ∧ ((splitOnChar '\n' (pyStrip g0)).length = 2 →
        prfBlock qc = (cellsOfRow ((splitOnChar '\n' (pyStrip g0)).getD 1 [])).map PCell.str))
    ∧ prfBlock (("| Sentence | Pred | Class | Reason |\n|---|---|---|---|\n| The patient fell. | FALL | Typographical_Error | misspelled word |").data)
      = [PCell.str (("The patient fell.").data), PCell.str (("FALL").data),
         PCell.str (("Typographical_Error").data), PCell.str (("misspelled word").data)] := by
  constructor
  · intro qc g0 h
    constructor
    · intro h3
      simp only [prfBlock, h]
      rw [if_pos h3]
    · intro h2
      simp only [prfBlock, h]
      rw [if_neg (by omega), if_pos (by omega)]
  · rfl

set_option maxRecDepth 8192 in
/-- Witness for C8: the spec's markdown scenario via the general statement
(the matched region is the whole block, three lines, third line is data). -/
theorem claim8_witness :
    prfBlock (("| Sentence | Pred | Class | Reason |\n|---|---|---|---|\n| The patient fell. | FALL | Typographical_Error | misspelled word |").data)
      = (cellsOfRow ((splitOnChar '\n' (pyStrip (("| Sentence | Pred | Class | Reason |\n|---|---|---|---|\n| The patient fell. | FALL | Typographical_Error | misspelled word |").data))).getD 2 [])).map PCell.str :=
  ((claim8_dataRow.1
      (("| Sentence | Pred | Class | Reason |\n|---|---|---|---|\n| The patient fell. | FALL | Typographical_Error | misspelled word |").data)
      (("| Sentence | Pred | Class | Reason |\n|---|---|---|---|\n| The patient fell. | FALL | Typographical_Error | misspelled word |").data)
      (by rfl)).1 (by decide))

set_option maxRecDepth 8192 in
/-- Counterexample for C8 as stated: a data row with an interior
whitespace-only cell; the code drops it (3 cells survive), while the claim
requires interior cells to be kept (4 cells). -/
theorem claim8_counterexample :
    prfBlock (("|a|b|c|d|\n|-|-|-|-|\n|x| |y|z|").data)
      = [PCell.str (("x").data), PCell.str (("y").data), PCell.str (("z").data)] ∧
    ([PCell.str (("x").data), PCell.str (("y").data), PCell.str (("z").data)] : List PCell)
      ≠ [PCell.str (("x").data), PCell.str ([]), PCell.str (("y").data),
         PCell.str (("z").data)] :=
  ⟨rfl, by decide⟩

/-- Claim C10 (confirmed): in parse_result_file_new, a block containing
"final answer" in any letter case has everything from its start through the
end of the first such occurrence replaced by the literal "Final Answer"
before the labeled-field extraction runs (so markers before that point are
discarded), and a block without the substring is processed unmodified. -/
theorem claim10_subFinalAnswer :
    (∀ (qc : Chars) (i : Nat) (ro : List Chars),
      matchCIAt faPat qc i = true → (∀ j, j < i → matchCIAt faPat qc j = false) →
      subFA qc = faRep ++ qc.drop (i + faPat.length)
      ∧ pnewBlock qc ro
          = (labeledFields (faRep ++ qc.drop (i + faPat.length)) ++ ro).map PCell.str)
    ∧ (∀ qc : Chars, (∀ j, matchCIAt faPat qc j = false) →
        subFA qc = qc ∧ ∀ ro, pnewBlock qc ro = (labeledFields qc ++ ro).map PCell.str) := by
  constructor
  · intro qc i ro h1 h2
    have hs : subFA qc = faRep ++ qc.drop (i + faPat.length) := by
      unfold subFA findCISub
      rw [findCISubAux_min faPat qc 0 i h1 h2]
      simp
    exact ⟨hs, by unfold pnewBlock; rw [hs]⟩
  · intro qc h
    have hs : subFA qc = qc := by
      unfold subFA findCISub
      rw [findCISubAux_none faPat qc 0 h]
    exact ⟨hs, fun ro => by unfold pnewBlock; rw [hs]⟩

/-- Witness for C10: a block whose first (case-insensitive) final-answer
occurrence starts at index 3; the prefix is replaced. -/
theorem claim10_witness :
    subFA (("xx Final Answer yy").data)
      = faRep ++ (("xx Final Answer yy").data).drop (3 + faPat.length)
    ∧ pnewBlock (("xx Final Answer yy").data) []
      = (labeledFields (faRep ++ (("xx Final Answer yy").data).drop (3 + faPat.length)) ++ []).map PCell.str :=
  claim10_subFinalAnswer.1 (("xx Final Answer yy").data) 3 [] (by decide)
    (by decide)
